import Mathlib

/-!
Verification of the ZirCatz server (src/server.js), a shallow embedding.

The embedding models:
  * MongoDB documents as association lists of field name / value pairs
    (`Doc`); the "svgs" and "catTexts" collections as lists of documents,
    where `insertOne` appends at the end and `findOne` returns the first
    matching document.
  * the blockchain contract as a `Chain` record of fallible read calls
    (`totalSupply`, `tokenByIndex`, `tokenURI` return `Except String _`,
    the error channel standing for a thrown RPC error).
  * `getProvider` by a boolean `providerOk` (in the source it returns the
    provider or `null`; the provider object itself carries no data the
    reconciler reads beyond giving access to the contract calls).
  * `new Date()` timestamps by a `clock : Nat -> Nat` giving the time
    observed at loop index `i`.
  * JavaScript string/buffer operations (`split`, `Buffer.from(_, "base64")`,
    `.toString("utf-8")`, BigInt `.toString()`) by executable Lean
    functions defined below.

Thrown-and-caught JavaScript exceptions are modelled by `Except`; a
function that catches every exception it can raise (as `fetchAndStoreSVGs`
does with its single try/catch around the whole loop body) is total and
returns an outcome flag instead.
-/

/-- A MongoDB field value as used by this server: strings (tokenId, svg,
text) and Date timestamps (createdAt). -/
inductive Value where
  | str (s : String)
  | date (t : Nat)
deriving DecidableEq, Repr

/-- A MongoDB document: an ordered list of field name / value pairs. -/
abbrev Doc := List (String × Value)

/-- Read a field of a document: the value at the first occurrence of the
field name, `none` when the field is absent (JavaScript `undefined`). -/
def Doc.getField (d : Doc) (k : String) : Option Value :=
  (d.find? (fun p => p.1 == k)).map (fun p => p.2)

/-- MongoDB `$set` of one field on a document: overwrite the value at the
field name when present (field names are unique in a document), or add
the field at the end when absent. -/
def Doc.setField : Doc → String → Value → Doc
  | [], k, v => [(k, v)]
  | p :: rest, k, v =>
    if p.1 == k then (k, v) :: rest
    else p :: Doc.setField rest k v

/-- A collection of documents; `insertOne` appends, `findOne` scans. -/
abbrev Store := List Doc

/-- Model of `collection.findOne` filtered on tokenId: the first document
whose `tokenId` field equals the string `tid`. -/
def findOneByTokenId (st : Store) (tid : String) : Option Doc :=
  st.find? (fun d => d.getField "tokenId" == some (Value.str tid))

/-- The contract read interface used by the server (ERC-721 Enumerable
views). Each call either returns a value or throws an RPC error, modelled
by the `Except` error channel. Token identifiers are uint256 values,
modelled as `Nat`. -/
structure Chain where
  totalSupply : Except String Nat
  tokenByIndex : Nat → Except String Nat
  tokenURI : Nat → Except String String

/-! ### JavaScript string and buffer primitives -/

/-- JavaScript split with a one-character separator, on character
lists: splits at every occurrence of `sep`, keeping empty pieces. -/
def splitChars (sep : Char) : List Char → List (List Char)
  | [] => [[]]
  | c :: rest =>
    if c = sep then [] :: splitChars sep rest
    else
      match splitChars sep rest with
      | [] => [[c]]
      | h :: t => (c :: h) :: t

/-- JavaScript `s.split(sep)` for a one-character separator. -/
def jsSplit (sep : Char) (s : String) : List String :=
  (splitChars sep s.data).map String.mk

/-- The 6-bit value of a base64 alphabet character, `none` for characters
outside the alphabet (Node's base64 decoder skips those, `=` included). -/
def b64Val (c : Char) : Option Nat :=
  if 'A' ≤ c ∧ c ≤ 'Z' then some (c.toNat - 65)
  else if 'a' ≤ c ∧ c ≤ 'z' then some (c.toNat - 97 + 26)
  else if '0' ≤ c ∧ c ≤ '9' then some (c.toNat - 48 + 52)
  else if c = '+' then some 62
  else if c = '/' then some 63
  else none

/-- A character that may appear in a base64 payload: the alphabet plus the
padding character. -/
def isBase64Char (c : Char) : Bool :=
  (b64Val c).isSome || c = '='

/-- Regroup a stream of 6-bit base64 values into 8-bit bytes: four values
give three bytes, a final group of three gives two, of two gives one. -/
def b64Chunks : List Nat → List Nat
  | a :: b :: c :: d :: rest =>
    let n := ((a * 64 + b) * 64 + c) * 64 + d
    n / 65536 :: n / 256 % 256 :: n % 256 :: b64Chunks rest
  | [a, b, c] =>
    let n := (a * 64 + b) * 64 + c
    [n / 1024, n / 4 % 256]
  | [a, b] => [(a * 64 + b) / 16]
  | _ => []

/-- Model of `Buffer.from` with base64 encoding: the byte list decoded from `s`, skipping
characters outside the base64 alphabet. -/
def bufFromBase64 (s : String) : List Nat :=
  b64Chunks (s.data.filterMap b64Val)

/-- Is `b` a UTF-8 continuation byte (`10xxxxxx`)? -/
def isCont (b : Nat) : Bool :=
  128 ≤ b && b < 192

/-- UTF-8 decoding worker: the fuel, at least the list length, makes the
recursion structural (each step consumes at least one byte). Invalid
sequences become U+FFFD, as `buffer.toString("utf-8")` produces. -/
def utf8DecodeAux : Nat → List Nat → List Char
  | 0, _ => []
  | _, [] => []
  | fuel + 1, b :: rest =>
    if b < 128 then Char.ofNat b :: utf8DecodeAux fuel rest
    else if b < 192 then Char.ofNat 0xFFFD :: utf8DecodeAux fuel rest
    else if b < 224 then
      match rest with
      | c1 :: rest1 =>
        if isCont c1 then
          Char.ofNat ((b - 192) * 64 + (c1 - 128)) :: utf8DecodeAux fuel rest1
        else Char.ofNat 0xFFFD :: utf8DecodeAux fuel rest
      | [] => [Char.ofNat 0xFFFD]
    else if b < 240 then
      match rest with
      | c1 :: c2 :: rest2 =>
        if isCont c1 && isCont c2 then
          Char.ofNat ((b - 224) * 4096 + (c1 - 128) * 64 + (c2 - 128)) ::
            utf8DecodeAux fuel rest2
        else Char.ofNat 0xFFFD :: utf8DecodeAux fuel rest
      | _ => [Char.ofNat 0xFFFD]
    else if b < 248 then
      match rest with
      | c1 :: c2 :: c3 :: rest3 =>
        if isCont c1 && isCont c2 && isCont c3 then
          Char.ofNat
              ((b - 240) * 262144 + (c1 - 128) * 4096 + (c2 - 128) * 64 +
                (c3 - 128)) ::
            utf8DecodeAux fuel rest3
        else Char.ofNat 0xFFFD :: utf8DecodeAux fuel rest
      | _ => [Char.ofNat 0xFFFD]
    else Char.ofNat 0xFFFD :: utf8DecodeAux fuel rest

/-- UTF-8 decoding of a byte list. -/
def utf8Decode (l : List Nat) : List Char :=
  utf8DecodeAux l.length l

/-- Model of a buffer's `toString` with utf-8 encoding. -/
def bufToStringUtf8 (bytes : List Nat) : String :=
  String.mk (utf8Decode bytes)

/-- Composition `Buffer.from` then `toString`: the UTF-8 decoding of a
base64 payload, exactly the decode step at src/server.js:82. -/
def decodeB64Utf8 (s : String) : String :=
  bufToStringUtf8 (bufFromBase64 s)

/-- Element 1 of the URI split at commas: the piece of the URI between the first and
second comma (the whole remainder when there is at most one more comma),
`undefined` — here `none` — when the URI has no comma at all. Feeding
`undefined` to `Buffer.from` throws, hence the `Option`. -/
def extractPayload (uri : String) : Option String :=
  (jsSplit ',' uri).get? 1

/-! ### The SVG Reconciler (src/server.js:56-100) -/

/-- The document inserted at src/server.js:87-91 for token id `tid`, split
payload `payload` and insertion time `t`: exactly the three fields
`tokenId` (decimal string of the id), `svg` (decoded markup) and
`createdAt`. -/
def mkTokenDoc (tid : Nat) (payload : String) (t : Nat) : Doc :=
  [("tokenId", Value.str (toString tid)),
   ("svg", Value.str (decodeB64Utf8 payload)),
   ("createdAt", Value.date t)]

/-- One iteration of the reconciler loop body (src/server.js:70-94) at
index `i` over store `st`: resolve the token id, fetch its URI, skip if a
record with that id exists, otherwise decode and insert. The `Except`
error channel carries any thrown error: RPC failure of either contract
call, or the decode `TypeError` when the URI has no comma. -/
def processToken (ch : Chain) (clock : Nat → Nat) (i : Nat) (st : Store) :
    Except String Store :=
  match ch.tokenByIndex i with
  | .error e => .error e
  | .ok tid =>
    match ch.tokenURI tid with
    | .error e => .error e
    | .ok uri =>
      match findOneByTokenId st (toString tid) with
      | some _ => .ok st
      | none =>
        match extractPayload uri with
        | none => .error "TypeError: first argument of Buffer.from is undefined"
        | some payload => .ok (st ++ [mkTokenDoc tid payload (clock i)])

/-- The reconciler `for` loop, running indices `i, i+1, ...` for `fuel`
further iterations. The try/catch of src/server.js:65-99 sits OUTSIDE the
loop, so the first error ends the loop: the result flag is `false` and no
later index is attempted. -/
def reconcileAux (ch : Chain) (clock : Nat → Nat) :
    Nat → Nat → Store → Store × Bool
  | 0, _, st => (st, true)
  | fuel + 1, i, st =>
    match processToken ch clock i st with
    | .error _ => (st, false)
    | .ok st1 => reconcileAux ch clock fuel (i + 1) st1

/-- Outcome of one reconciler tick: the provider was unavailable and the
tick was skipped (src/server.js:58-61), the tick's try block threw and the
catch at src/server.js:97-99 logged it, or the loop finished. In every
case `fetchAndStoreSVGs` RETURNS — it never throws to its caller. -/
inductive TickResult where
  | skipped
  | errored
  | finished
deriving DecidableEq, Repr

/-- The reconciler pass `fetchAndStoreSVGs` (src/server.js:56-100). `providerOk` models
whether `getProvider()` returned a provider or `null`; `totalSupply` is
read once, then the loop runs over indices `0..totalSupply-1`. -/
def fetchAndStoreSVGs (providerOk : Bool) (ch : Chain) (clock : Nat → Nat)
    (st : Store) : Store × TickResult :=
  if providerOk then
    match ch.totalSupply with
    | .error _ => (st, .errored)
    | .ok n =>
      let r := reconcileAux ch clock n 0 st
      (r.1, if r.2 then .finished else .errored)
  else (st, .skipped)

/-! ### The text event listener (src/server.js:111-139) -/

/-- Model of the `updateOne` upsert on the "catTexts" collection, filter
on tokenId equal to `key` with a Mongo set of the text field: update the
`text` field of the first document keyed by `key`, or insert a new
document with fields tokenId and text when none matches. -/
def upsertText (key t : String) : Store → Store
  | [] => [[("tokenId", Value.str key), ("text", Value.str t)]]
  | d :: rest =>
    if d.getField "tokenId" == some (Value.str key) then
      Doc.setField d "text" (Value.str t) :: rest
    else d :: upsertText key t rest

/-- The `TextSet` event callback (src/server.js:120-136): store `text`
under the decimal string form of the event's token id. The store error it
can meet is caught and logged inside the callback; the store transition
below is the successful path. -/
def handleTextSet (st : Store) (tokenId : Nat) (text : String) : Store :=
  upsertText (toString tokenId) text st

/-- The number of documents in a collection whose `tokenId` field equals
the string `key`. -/
def countKey (st : Store) (key : String) : Nat :=
  (st.filter (fun d => d.getField "tokenId" == some (Value.str key))).length

/-! ### HTTP endpoints used by the claims -/

/-- A JSON response body as this server produces them: `res.json(null)`,
`res.json(<string or date value>)`, `res.json(undefined)` (a document
field that is absent), a message object, or an error object. -/
inductive RespBody where
  | null
  | undef
  | val (v : Value)
  | msgObj (s : String)
  | errObj (s : String)
deriving DecidableEq, Repr

/-- An HTTP response: status code and JSON body. -/
structure HttpResponse where
  status : Nat
  body : RespBody
deriving DecidableEq, Repr

/-- Handler of the get-cat-text route (src/server.js:204-214), given the result
of the `findOne` store lookup (`Except` error = the lookup itself threw):
on lookup failure respond 500 with an error object; otherwise respond 200
with `result ? result.text : null`. -/
def getCatTextHandler (lookup : Except String (Option Doc)) : HttpResponse :=
  match lookup with
  | .error _ => ⟨500, .errObj "Failed to fetch cat text"⟩
  | .ok none => ⟨200, .null⟩
  | .ok (some d) =>
    match d.getField "text" with
    | some v => ⟨200, .val v⟩
    | none => ⟨200, .undef⟩

/-- The get-cat-text route with a successful store lookup over
catTexts store `st` and route parameter `tid`. -/
def getCatTextRoute (st : Store) (tid : String) : HttpResponse :=
  getCatTextHandler (.ok (findOneByTokenId st tid))

/-- The fetch-svgs route (src/server.js:194-202): run one reconciler pass,
then respond. `fetchAndStoreSVGs` catches every error it can raise and
returns normally (the only statements outside its try blocks are
constructor calls on constants), so the handler's own catch — which would
respond 500 — is unreachable and the response is always the 200 message. -/
def fetchSvgsRoute (providerOk : Bool) (ch : Chain) (clock : Nat → Nat)
    (st : Store) : Store × HttpResponse :=
  let r := fetchAndStoreSVGs providerOk ch clock st
  (r.1, ⟨200, .msgObj "SVG fetch process initiated"⟩)

/-! ### Concrete chain states used to instantiate the theorems -/

/-- A healthy one-token chain: token id 101 at index 0, URI carrying the
base64 of "hello". -/
def exChain : Chain where
  totalSupply := .ok 1
  tokenByIndex := fun i =>
    if i = 0 then .ok 101 else .error "ERC721Enumerable: global index out of bounds"
  tokenURI := fun tid =>
    if tid = 101 then .ok "data:image/svg+xml;base64,aGVsbG8="
    else .error "ERC721Metadata: URI query for nonexistent token"

/-- A constant wall clock for instantiations. -/
def exClock : Nat → Nat := fun _ => 0

/-- A two-token chain whose first token has a comma-free URI — splitting
it yields no payload and the decode throws — while the second token is
well-formed (base64 of "hi") and absent from the store. -/
def badToken0Chain : Chain where
  totalSupply := .ok 2
  tokenByIndex := fun i =>
    if i = 0 then .ok 7
    else if i = 1 then .ok 8
    else .error "ERC721Enumerable: global index out of bounds"
  tokenURI := fun tid =>
    if tid = 7 then .ok "no-comma-in-this-uri"
    else if tid = 8 then .ok "data:image/svg+xml;base64,aGk="
    else .error "ERC721Metadata: URI query for nonexistent token"

/-- A chain whose every read throws: the tick's `totalSupply()` call at
src/server.js:66 fails, so the pass fails as a whole. -/
def rpcDownChain : Chain where
  totalSupply := .error "RPC error: could not detect network"
  tokenByIndex := fun _ => .error "RPC error: could not detect network"
  tokenURI := fun _ => .error "RPC error: could not detect network"

/-! ### Helper lemmas about the store -/

theorem findOneByTokenId_append_of_some {st : Store} {tid : String} {d : Doc}
    (h : findOneByTokenId st tid = some d) (tail : Store) :
    findOneByTokenId (st ++ tail) tid = some d := by
  simp [findOneByTokenId, List.find?_append] at h ⊢
  simp [h]

theorem findOneByTokenId_isSome_append {st tail : Store} {tid : String}
    (h : (findOneByTokenId st tid).isSome) :
    (findOneByTokenId (st ++ tail) tid).isSome := by
  cases hd : findOneByTokenId st tid with
  | none => rw [hd] at h; simp at h
  | some d => rw [findOneByTokenId_append_of_some hd]; rfl

theorem getField_mkTokenDoc_tokenId (tid : Nat) (payload : String) (t : Nat) :
    (mkTokenDoc tid payload t).getField "tokenId" =
      some (Value.str (toString tid)) := by
  simp [mkTokenDoc, Doc.getField, List.find?]

theorem findOneByTokenId_insert_self (st : Store) (tid : Nat)
    (payload : String) (t : Nat) :
    (findOneByTokenId (st ++ [mkTokenDoc tid payload t])
      (toString tid)).isSome := by
  rw [findOneByTokenId, List.find?_isSome]
  refine ⟨mkTokenDoc tid payload t, by simp, ?_⟩
  simp [getField_mkTokenDoc_tokenId]

/-! ### Helper lemmas about one loop iteration -/

theorem processToken_ok {ch : Chain} {clock : Nat → Nat} {i : Nat}
    {st st1 : Store} (h : processToken ch clock i st = .ok st1) :
    ∃ tid uri, ch.tokenByIndex i = .ok tid ∧ ch.tokenURI tid = .ok uri ∧
      (((findOneByTokenId st (toString tid)).isSome ∧ st1 = st) ∨
       (findOneByTokenId st (toString tid) = none ∧
         ∃ payload, extractPayload uri = some payload ∧
           st1 = st ++ [mkTokenDoc tid payload (clock i)])) := by
  unfold processToken at h
  split at h
  · exact absurd h (by simp)
  next tid hti =>
    split at h
    · exact absurd h (by simp)
    next uri huri =>
      refine ⟨tid, uri, hti, huri, ?_⟩
      split at h
      next d hfind =>
        refine Or.inl ⟨by simp [hfind], ?_⟩
        injection h with h2
        exact h2.symm
      next hfind =>
        split at h
        · exact absurd h (by simp)
        next payload hpay =>
          refine Or.inr ⟨hfind, payload, hpay, ?_⟩
          injection h with h2
          exact h2.symm

theorem processToken_skip {ch : Chain} {clock : Nat → Nat} {i tid : Nat}
    {uri : String} {st : Store} {d : Doc}
    (hti : ch.tokenByIndex i = .ok tid) (huri : ch.tokenURI tid = .ok uri)
    (hfind : findOneByTokenId st (toString tid) = some d) :
    processToken ch clock i st = .ok st := by
  simp [processToken, hti, huri, hfind]

/-! ### Helper lemmas about the loop -/

theorem reconcileAux_append (ch : Chain) (clock : Nat → Nat) :
    ∀ fuel i st, ∃ tail, (reconcileAux ch clock fuel i st).1 = st ++ tail ∧
      ∀ d ∈ tail, ∃ j tid payload, i ≤ j ∧ j < i + fuel ∧
        ch.tokenByIndex j = .ok tid ∧ d = mkTokenDoc tid payload (clock j)
  | 0, i, st => ⟨[], by simp [reconcileAux]⟩
  | fuel + 1, i, st => by
    unfold reconcileAux
    cases hp : processToken ch clock i st with
    | error e => exact ⟨[], by simp⟩
    | ok st1 =>
      obtain ⟨tail1, htail1, hshape1⟩ := reconcileAux_append ch clock fuel (i + 1) st1
      obtain ⟨tid, uri, hti, huri, hcase⟩ := processToken_ok hp
      cases hcase with
      | inl hskip =>
        refine ⟨tail1, by simpa [hskip.2] using htail1, ?_⟩
        intro d hd
        obtain ⟨j, tid1, payload1, hij, hjf, htij, hdj⟩ := hshape1 d hd
        exact ⟨j, tid1, payload1, by omega, by omega, htij, hdj⟩
      | inr hins =>
        obtain ⟨hnone, payload, hpay, hst1⟩ := hins
        refine ⟨mkTokenDoc tid payload (clock i) :: tail1, ?_, ?_⟩
        · rw [htail1, hst1]; simp
        · intro d hd
          cases hd with
          | head => exact ⟨i, tid, payload, by omega, by omega, hti, rfl⟩
          | tail _ hd1 =>
            obtain ⟨j, tid1, payload1, hij, hjf, htij, hdj⟩ := hshape1 d hd1
            exact ⟨j, tid1, payload1, by omega, by omega, htij, hdj⟩

theorem reconcileAux_complete (ch : Chain) (clock : Nat → Nat) :
    ∀ fuel i st st1, reconcileAux ch clock fuel i st = (st1, true) →
      ∀ j, i ≤ j → j < i + fuel →
        ∃ tid uri, ch.tokenByIndex j = .ok tid ∧ ch.tokenURI tid = .ok uri ∧
          (findOneByTokenId st1 (toString tid)).isSome
  | 0, i, st, st1, _, j, hij, hjf => absurd (Nat.lt_of_le_of_lt hij hjf) (by omega)
  | fuel + 1, i, st, st1, h, j, hij, hjf => by
    rw [reconcileAux] at h
    revert h
    cases hp : processToken ch clock i st with
    | error e =>
      intro h
      exact absurd (congrArg Prod.snd h) (by simp)
    | ok st2 =>
      intro h0
      have h : reconcileAux ch clock fuel (i + 1) st2 = (st1, true) := h0
      by_cases hji : j = i
      · subst hji
        obtain ⟨tid, uri, hti, huri, hcase⟩ := processToken_ok hp
        refine ⟨tid, uri, hti, huri, ?_⟩
        have hsome2 : (findOneByTokenId st2 (toString tid)).isSome := by
          cases hcase with
          | inl hskip => rw [hskip.2]; exact hskip.1
          | inr hins =>
            obtain ⟨_, payload, _, hst2⟩ := hins
            rw [hst2]; exact findOneByTokenId_insert_self ..
        obtain ⟨tail, htail, _⟩ := reconcileAux_append ch clock fuel (j + 1) st2
        have : st1 = st2 ++ tail := by rw [← htail, h]
        rw [this]; exact findOneByTokenId_isSome_append hsome2
      · exact reconcileAux_complete ch clock fuel (i + 1) st2 st1 h j
          (by omega) (by omega)

theorem fetchAndStoreSVGs_append (providerOk : Bool) (ch : Chain)
    (clock : Nat → Nat) (st : Store) :
    ∃ tail, (fetchAndStoreSVGs providerOk ch clock st).1 = st ++ tail ∧
      ∀ d ∈ tail, ∃ j n tid payload, ch.totalSupply = .ok n ∧ j < n ∧
        ch.tokenByIndex j = .ok tid ∧ d = mkTokenDoc tid payload (clock j) := by
  unfold fetchAndStoreSVGs
  cases providerOk with
  | false => exact ⟨[], by simp⟩
  | true =>
    cases hn : ch.totalSupply with
    | error e => exact ⟨[], by simp⟩
    | ok n =>
      obtain ⟨tail, htail, hshape⟩ := reconcileAux_append ch clock n 0 st
      refine ⟨tail, htail, ?_⟩
      intro d hd
      obtain ⟨j, tid, payload, _, hjn, htij, hdj⟩ := hshape d hd
      exact ⟨j, n, tid, payload, rfl, by omega, htij, hdj⟩

theorem fetchAndStoreSVGs_finished {ch : Chain} {clock : Nat → Nat} {st : Store}
    (h : (fetchAndStoreSVGs true ch clock st).2 = .finished) :
    ∃ n, ch.totalSupply = .ok n ∧
      reconcileAux ch clock n 0 st =
        ((fetchAndStoreSVGs true ch clock st).1, true) := by
  revert h
  unfold fetchAndStoreSVGs
  cases hn : ch.totalSupply with
  | error e => intro h; exact absurd h (by simp)
  | ok n =>
    intro h
    have h1 : (if (reconcileAux ch clock n 0 st).2 then TickResult.finished
        else TickResult.errored) = TickResult.finished := h
    refine ⟨n, rfl, ?_⟩
    cases hr : (reconcileAux ch clock n 0 st).2 with
    | false => rw [hr] at h1; exact absurd h1 (by simp)
    | true => exact Prod.ext rfl hr

theorem reconcileAux_noop (ch : Chain) (clock : Nat → Nat) :
    ∀ fuel i st,
      (∀ j, i ≤ j → j < i + fuel →
        ∃ tid uri, ch.tokenByIndex j = .ok tid ∧ ch.tokenURI tid = .ok uri ∧
          (findOneByTokenId st (toString tid)).isSome) →
      reconcileAux ch clock fuel i st = (st, true)
  | 0, i, st, _ => rfl
  | fuel + 1, i, st, hcov => by
    obtain ⟨tid, uri, hti, huri, hsome⟩ := hcov i (Nat.le_refl i) (by omega)
    obtain ⟨d, hd⟩ := Option.isSome_iff_exists.mp hsome
    unfold reconcileAux
    rw [processToken_skip hti huri hd]
    exact reconcileAux_noop ch clock fuel (i + 1) st
      (fun j h1 h2 => hcov j (by omega) (by omega))

/-! ### The claims -/

/-- Claim C1 counterexample. On `badToken0Chain` the token at index 0 has
a comma-free URI, so its decode throws; the claim says the tick still
attempts index 1, whose token (id 8) is well-formed and absent, so a
record keyed "8" would be stored. Instead the single try/catch around the
whole loop (src/server.js:65-99) ends the tick: the store stays empty and
no record keyed "8" exists. -/
theorem tick_error_counterexample :
    (fetchAndStoreSVGs true badToken0Chain exClock []).1 = [] ∧
    (fetchAndStoreSVGs true badToken0Chain exClock []).2 = .errored ∧
    badToken0Chain.tokenByIndex 1 = .ok 8 ∧
    findOneByTokenId (fetchAndStoreSVGs true badToken0Chain exClock []).1 "8"
      = none :=
  ⟨rfl, rfl, rfl, rfl⟩

/-- Claim C1, amended: an error raised while processing the token at
index `i` of a tick is caught (the tick returns an `errored` outcome
rather than propagating the exception) and the tick stops there: the
store is left as it was before index `i`, and no index after `i` is
attempted in that tick. -/
theorem tick_error_aborts_remaining_indices (ch : Chain) (clock : Nat → Nat)
    (fuel i : Nat) (st : Store) (e : String)
    (herr : processToken ch clock i st = .error e) :
    reconcileAux ch clock (fuel + 1) i st = (st, false) := by
  unfold reconcileAux
  rw [herr]

/-- Witness for C1 (amended) at `badToken0Chain`, index 0, two loop
iterations remaining: the decode error at index 0 ends the tick with the
store unchanged. -/
theorem tick_error_aborts_remaining_indices_witness :
    reconcileAux badToken0Chain exClock 2 0 [] = ([], false) :=
  tick_error_aborts_remaining_indices badToken0Chain exClock 1 0 []
    "TypeError: first argument of Buffer.from is undefined" rfl

/-- Claim C2: a completed reconciler pass is idempotent — a second pass
over the same chain state leaves the "svgs" collection exactly as the
first pass left it, inserting zero additional records (whatever
timestamps the second pass would have used). -/
theorem reconciler_idempotent (ch : Chain) (clock1 clock2 : Nat → Nat)
    (st : Store)
    (h : (fetchAndStoreSVGs true ch clock1 st).2 = .finished) :
    (fetchAndStoreSVGs true ch clock2
        ((fetchAndStoreSVGs true ch clock1 st).1)).1 =
      (fetchAndStoreSVGs true ch clock1 st).1 := by
  obtain ⟨n, hn, hrec⟩ := fetchAndStoreSVGs_finished h
  have hcov := reconcileAux_complete ch clock1 n 0 st _ hrec
  have hnoop := reconcileAux_noop ch clock2 n 0
    ((fetchAndStoreSVGs true ch clock1 st).1) hcov
  unfold fetchAndStoreSVGs
  rw [hn]
  simp [hrec, hnoop]

/-- Witness for C2 at the one-token `exChain` starting from the empty
store: the first pass finishes, and a second pass leaves its store
unchanged. -/
theorem reconciler_idempotent_witness :
    (fetchAndStoreSVGs true exChain exClock
        ((fetchAndStoreSVGs true exChain exClock []).1)).1 =
      (fetchAndStoreSVGs true exChain exClock []).1 :=
  reconciler_idempotent exChain exClock exClock [] rfl

/-- Claim C3: completeness of a successful pass — for every index `i`
below the `totalSupply` read at the start of the pass, the resulting
"svgs" collection holds a document whose `tokenId` field is the decimal
string of `tokenByIndex(i)`. -/
theorem reconciler_complete (ch : Chain) (clock : Nat → Nat) (st : Store)
    (n i : Nat) (hn : ch.totalSupply = .ok n)
    (hfin : (fetchAndStoreSVGs true ch clock st).2 = .finished)
    (hi : i < n) :
    ∃ tid, ch.tokenByIndex i = .ok tid ∧
      ∃ d ∈ (fetchAndStoreSVGs true ch clock st).1,
        d.getField "tokenId" = some (Value.str (toString tid)) := by
  obtain ⟨n1, hn1, hrec⟩ := fetchAndStoreSVGs_finished hfin
  rw [hn] at hn1
  injection hn1 with hnn
  subst hnn
  obtain ⟨tid, uri, hti, huri, hsome⟩ :=
    reconcileAux_complete ch clock n 0 st _ hrec i (Nat.zero_le i) (by omega)
  refine ⟨tid, hti, ?_⟩
  rw [findOneByTokenId, List.find?_isSome] at hsome
  obtain ⟨d, hdmem, hdp⟩ := hsome
  exact ⟨d, hdmem, by simpa using hdp⟩

/-- Witness for C3 at `exChain` (totalSupply 1, index 0, token id 101):
the pass finishes and a document keyed "101" is stored. -/
theorem reconciler_complete_witness :
    ∃ tid, exChain.tokenByIndex 0 = .ok tid ∧
      ∃ d ∈ (fetchAndStoreSVGs true exChain exClock []).1,
        d.getField "tokenId" = some (Value.str (toString tid)) :=
  reconciler_complete exChain exClock [] 1 0 rfl rfl (by decide)

/-- Claim C5: when `getProvider()` yields no connection at the start of a
tick, the tick returns at once with the store untouched and outcome
`skipped` — no store operation, no raised error (the function returns
instead of throwing), no retry within the tick. -/
theorem tick_skipped_without_provider (ch : Chain) (clock : Nat → Nat)
    (st : Store) :
    fetchAndStoreSVGs false ch clock st = (st, .skipped) :=
  rfl

/-- Claim C8: the reconciler only ever appends to the "svgs" collection.
Every document present before a pass — complete or aborted — is still
present, bit-for-bit unchanged, after it (the prior store is a prefix of
the new one). -/
theorem reconciler_frame_preserves_existing (providerOk : Bool) (ch : Chain)
    (clock : Nat → Nat) (st : Store) :
    (∃ tail, (fetchAndStoreSVGs providerOk ch clock st).1 = st ++ tail) ∧
      ∀ d ∈ st, d ∈ (fetchAndStoreSVGs providerOk ch clock st).1 := by
  obtain ⟨tail, htail, _⟩ := fetchAndStoreSVGs_append providerOk ch clock st
  exact ⟨⟨tail, htail⟩, fun d hd => by rw [htail]; exact List.mem_append_left _ hd⟩

/-- Claim C9 counterexample. On `rpcDownChain` the pass fails as a whole
(its `totalSupply()` read throws, the tick outcome is `errored`), yet
`GET /fetch-svgs` still responds 200 with the success message — not 500
with an error body — because `fetchAndStoreSVGs` catches every error it
can raise and returns normally. -/
theorem fetchSvgs_pass_failure_counterexample :
    (fetchAndStoreSVGs true rpcDownChain exClock []).2 = .errored ∧
    (fetchSvgsRoute true rpcDownChain exClock []).2 =
      ⟨200, RespBody.msgObj "SVG fetch process initiated"⟩ ∧
    (fetchSvgsRoute true rpcDownChain exClock []).2.status ≠ 500 :=
  ⟨rfl, rfl, by decide⟩

/-- Claim C9, amended: for every request to `GET /fetch-svgs`, one
reconciler pass runs to completion — including its internal error
handling — before the response is sent, and the endpoint then responds
200 with the message body regardless of whether the pass finished,
errored, or was skipped; the handler's 500 branch is unreachable from a
pass failure, because `fetchAndStoreSVGs` catches its own errors. -/
theorem fetchSvgs_always_message_response (providerOk : Bool) (ch : Chain)
    (clock : Nat → Nat) (st : Store) :
    fetchSvgsRoute providerOk ch clock st =
      ((fetchAndStoreSVGs providerOk ch clock st).1,
        ⟨200, .msgObj "SVG fetch process initiated"⟩) :=
  rfl

/-- Splitting a list that does not contain the separator yields the list
itself as the single piece. -/
theorem splitChars_not_mem {sep : Char} : ∀ {xs : List Char}, sep ∉ xs →
    splitChars sep xs = [xs]
  | [], _ => rfl
  | c :: rest, h => by
    have hc : ¬c = sep := fun hh => h (hh ▸ List.mem_cons_self c rest)
    have hrest : sep ∉ rest := fun hh => h (List.mem_cons_of_mem c hh)
    unfold splitChars
    rw [if_neg hc, splitChars_not_mem hrest]

/-- Splitting at the first separator occurrence: the separator-free part
before it is the first piece. -/
theorem splitChars_append {sep : Char} : ∀ {xs : List Char} (ys : List Char),
    sep ∉ xs → splitChars sep (xs ++ sep :: ys) = xs :: splitChars sep ys
  | [], ys, _ => by
    show splitChars sep (sep :: ys) = [] :: splitChars sep ys
    conv_lhs => unfold splitChars
    rw [if_pos rfl]
  | c :: rest, ys, h => by
    have hc : ¬c = sep := fun hh => h (hh ▸ List.mem_cons_self c rest)
    have hrest : sep ∉ rest := fun hh => h (List.mem_cons_of_mem c hh)
    show splitChars sep (c :: (rest ++ sep :: ys)) = (c :: rest) :: splitChars sep ys
    conv_lhs => unfold splitChars
    rw [if_neg hc, splitChars_append ys hrest]

/-- Splitting a data URI `"data:image/svg+xml;base64," ++ B` at commas with
a comma-free payload `B` is exactly `B` — the piece after the URI's first
(and only prefix) comma. -/
theorem extractPayload_dataURI (B : String) (hB : ',' ∉ B.data) :
    extractPayload ("data:image/svg+xml;base64," ++ B) = some B := by
  have hpre : ("data:image/svg+xml;base64," ++ B).data =
      "data:image/svg+xml;base64".data ++ ',' :: B.data := by
    rw [String.data_append]
    rfl
  have hnopre : ',' ∉ "data:image/svg+xml;base64".data := by decide
  rw [extractPayload, jsSplit, hpre, splitChars_append B.data hnopre,
    splitChars_not_mem hB]
  rfl

/-- Claim C4: decode correctness. When a token's URI is
`"data:image/svg+xml;base64," ++ B` with `B` made of base64 characters
(hence comma-free), and the token is not yet stored, the document the
loop body inserts carries in `svg` exactly
`Buffer.from(B, "base64").toString("utf-8")` — the UTF-8 decoding of the
base64 payload after the first comma. -/
theorem reconciler_decode_correct (ch : Chain) (clock : Nat → Nat)
    (i tid : Nat) (st : Store) (B : String)
    (hB : B.data.all isBase64Char = true)
    (hti : ch.tokenByIndex i = .ok tid)
    (huri : ch.tokenURI tid = .ok ("data:image/svg+xml;base64," ++ B))
    (habsent : findOneByTokenId st (toString tid) = none) :
    ∃ d, processToken ch clock i st = .ok (st ++ [d]) ∧
      d.getField "svg" = some (Value.str (decodeB64Utf8 B)) := by
  have hcomma : ',' ∉ B.data := by
    intro hmem
    have h1 := List.all_eq_true.mp hB ',' hmem
    exact absurd h1 (by decide)
  refine ⟨mkTokenDoc tid B (clock i), ?_, ?_⟩
  · simp [processToken, hti, huri, habsent, extractPayload_dataURI B hcomma]
  · rfl

/-- Witness for C4 at `exChain`: token 101 carries the base64 of "hello"
and the inserted document's `svg` is its UTF-8 decoding. -/
theorem reconciler_decode_correct_witness :
    ∃ d, processToken exChain exClock 0 [] = .ok ([] ++ [d]) ∧
      d.getField "svg" = some (Value.str (decodeB64Utf8 "aGVsbG8=")) :=
  reconciler_decode_correct exChain exClock 0 101 [] "aGVsbG8=" (by decide)
    rfl rfl rfl

/-- Claim C10: every document a reconciler pass adds to the "svgs"
collection has exactly the three fields `tokenId`, `svg`, `createdAt`,
in that order; its `tokenId` is the decimal string of an on-chain token
identifier (`tokenByIndex(j)` for some index `j` below the supply read by
the pass) and its `svg` is a string. In particular no inserted document
lacks a `tokenId`. -/
theorem reconciler_insert_shape (providerOk : Bool) (ch : Chain)
    (clock : Nat → Nat) (st : Store) :
    ∃ tail, (fetchAndStoreSVGs providerOk ch clock st).1 = st ++ tail ∧
      ∀ d ∈ tail, ∃ j n tid payload, ch.totalSupply = .ok n ∧ j < n ∧
        ch.tokenByIndex j = .ok tid ∧
        d = [("tokenId", Value.str (toString tid)),
             ("svg", Value.str (decodeB64Utf8 payload)),
             ("createdAt", Value.date (clock j))] := by
  obtain ⟨tail, htail, hshape⟩ := fetchAndStoreSVGs_append providerOk ch clock st
  refine ⟨tail, htail, ?_⟩
  intro d hd
  obtain ⟨j, n, tid, payload, h1, h2, h3, h4⟩ := hshape d hd
  exact ⟨j, n, tid, payload, h1, h2, h3, by simpa [mkTokenDoc] using h4⟩

/-! ### Helper lemmas about `$set` and the catTexts upsert -/

theorem find?_key_cons_pos {q : String × Value} {key : String}
    (l : List (String × Value)) (h : (q.1 == key) = true) :
    List.find? (fun r => r.1 == key) (q :: l) = some q := by
  unfold List.find?
  rw [h]

theorem find?_key_cons_neg {q : String × Value} {key : String}
    (l : List (String × Value)) (h : (q.1 == key) = false) :
    List.find? (fun r => r.1 == key) (q :: l) =
      List.find? (fun r => r.1 == key) l := by
  conv_lhs => unfold List.find?
  rw [h]

theorem getField_setField_self : ∀ (d : Doc) (k : String) (v : Value),
    (Doc.setField d k v).getField k = some v
  | [], k, v => by
    rw [Doc.setField]
    unfold Doc.getField
    rw [find?_key_cons_pos _ (by simp)]
    rfl
  | p :: rest, k, v => by
    rw [Doc.setField]
    cases hpk : (p.1 == k) with
    | true =>
      rw [if_pos rfl]
      unfold Doc.getField
      rw [find?_key_cons_pos _ (by simp)]
      rfl
    | false =>
      rw [if_neg Bool.false_ne_true]
      unfold Doc.getField
      rw [find?_key_cons_neg _ hpk]
      exact getField_setField_self rest k v

theorem getField_setField_ne : ∀ (d : Doc) {k k2 : String} (v : Value),
    ¬k2 = k → (Doc.setField d k v).getField k2 = d.getField k2
  | [], k, k2, v, h => by
    rw [Doc.setField]
    unfold Doc.getField
    rw [find?_key_cons_neg _ (by simp; exact fun hh => h hh.symm)]
  | p :: rest, k, k2, v, h => by
    rw [Doc.setField]
    cases hpk : (p.1 == k) with
    | true =>
      have hp1 : p.1 = k := by simpa using hpk
      rw [if_pos rfl]
      unfold Doc.getField
      rw [find?_key_cons_neg _ (by simp; exact fun hh => h hh.symm),
        find?_key_cons_neg _ (by rw [hp1]; simp; exact fun hh => h hh.symm)]
    | false =>
      rw [if_neg Bool.false_ne_true]
      unfold Doc.getField
      cases hpk2 : (p.1 == k2) with
      | true =>
        rw [find?_key_cons_pos _ hpk2, find?_key_cons_pos _ hpk2]
      | false =>
        rw [find?_key_cons_neg _ hpk2, find?_key_cons_neg _ hpk2]
        exact getField_setField_ne rest v h

theorem countKey_cons_pos {d : Doc} {key : String} (rest : Store)
    (h : (d.getField "tokenId" == some (Value.str key)) = true) :
    countKey (d :: rest) key = countKey rest key + 1 := by
  rw [countKey, countKey, List.filter_cons, if_pos h]
  rfl

theorem countKey_cons_neg {d : Doc} {key : String} (rest : Store)
    (h : (d.getField "tokenId" == some (Value.str key)) = false) :
    countKey (d :: rest) key = countKey rest key := by
  rw [countKey, countKey, List.filter_cons, if_neg (by simp [h])]

theorem countKey_eq_zero_no_match {st : Store} {key : String}
    (h : countKey st key = 0) :
    ∀ d ∈ st, (d.getField "tokenId" == some (Value.str key)) = false := by
  intro d hd
  rw [countKey, List.length_eq_zero] at h
  have := List.filter_eq_nil_iff.mp h d hd
  simpa using this

theorem upsertText_last {key t : String} :
    ∀ st : Store, countKey st key ≤ 1 →
      countKey (upsertText key t st) key = 1 ∧
      ∀ d ∈ upsertText key t st,
        d.getField "tokenId" = some (Value.str key) →
        d.getField "text" = some (Value.str t)
  | [], _ => by
    refine ⟨?_, ?_⟩
    · simp [upsertText, countKey, Doc.getField, List.find?]
    · intro d hd _
      rw [upsertText] at hd
      simp at hd
      subst hd
      rfl
  | d0 :: rest, h => by
    rw [upsertText]
    cases hpk : (d0.getField "tokenId" == some (Value.str key)) with
    | true =>
      have hrest0 : countKey rest key = 0 := by
        rw [countKey_cons_pos rest hpk] at h
        omega
      have hset : (Doc.setField d0 "text" (Value.str t)).getField "tokenId" =
          d0.getField "tokenId" :=
        getField_setField_ne d0 (Value.str t) (by decide)
      have hpk2 : ((Doc.setField d0 "text" (Value.str t)).getField "tokenId"
          == some (Value.str key)) = true := by rw [hset]; exact hpk
      rw [if_pos rfl]
      refine ⟨?_, ?_⟩
      · rw [countKey_cons_pos rest hpk2, hrest0]
      · intro d hd hkey
        cases hd with
        | head => exact getField_setField_self d0 "text" (Value.str t)
        | tail _ hd1 =>
          have := countKey_eq_zero_no_match hrest0 d hd1
          rw [hkey] at this
          simp at this
    | false =>
      have hle : countKey rest key ≤ 1 := by
        rw [countKey_cons_neg rest hpk] at h
        exact h
      obtain ⟨ih1, ih2⟩ := upsertText_last rest hle
      rw [if_neg Bool.false_ne_true]
      refine ⟨?_, ?_⟩
      · rw [countKey_cons_neg _ hpk]
        exact ih1
      · intro d hd hkey
        cases hd with
        | head =>
          rw [hkey] at hpk
          simp at hpk
        | tail _ hd1 => exact ih2 d hd1 hkey

/-- Claim C6: last-write-wins upsert of cat texts. Starting from any
catTexts collection holding at most one record for the id (the
collection's invariant), delivering `(id, t1)` then `(id, t2)` to the
listener leaves exactly one record keyed by the decimal string of the id,
and every record with that key — hence the one — has `text = t2`. -/
theorem catText_last_write_wins (st : Store) (tokenId : Nat)
    (t1 t2 : String) (h : countKey st (toString tokenId) ≤ 1) :
    countKey (handleTextSet (handleTextSet st tokenId t1) tokenId t2)
        (toString tokenId) = 1 ∧
    ∀ d ∈ handleTextSet (handleTextSet st tokenId t1) tokenId t2,
      d.getField "tokenId" = some (Value.str (toString tokenId)) →
      d.getField "text" = some (Value.str t2) := by
  have h1 := @upsertText_last (toString tokenId) t1 st h
  exact upsertText_last (handleTextSet st tokenId t1) (le_of_eq h1.1)

/-- Witness for C6: events `(5, "a")` then `(5, "b")` on the empty
catTexts collection leave one record keyed "5" with text "b". -/
theorem catText_last_write_wins_witness :
    countKey (handleTextSet (handleTextSet [] 5 "a") 5 "b") (toString 5) = 1 ∧
    ∀ d ∈ handleTextSet (handleTextSet [] 5 "a") 5 "b",
      d.getField "tokenId" = some (Value.str (toString 5)) →
      d.getField "text" = some (Value.str "b") :=
  catText_last_write_wins [] 5 "a" "b" (by decide)

/-- Claim C7: `GET /get-cat-text/:tokenId` for an id with no stored
record — and a store lookup that itself succeeds — responds with status
200 and JSON `null`, not an error response. -/
theorem getCatText_absent_returns_null (st : Store) (tid : String)
    (h : findOneByTokenId st tid = none) :
    getCatTextRoute st tid = ⟨200, .null⟩ := by
  rw [getCatTextRoute, h]
  rfl

/-- Witness for C7: id "5" on the empty catTexts collection. -/
theorem getCatText_absent_returns_null_witness :
    getCatTextRoute [] "5" = ⟨200, .null⟩ :=
  getCatText_absent_returns_null [] "5" rfl
